import Mathlib

/-!
Shallow embedding of the gorm prometheus plugin (package `prometheus`):
the exporter lifecycle (`New`, `Initialize`), the refresh sampler
(`refresh`), metric-name construction, the process-wide registration and
one-shot server/loop guards, and the MySQL status plugin (`Mysql`).

Machine integers of the source (int, int64, time.Duration, uint32) are
modelled as `Int`/`Nat`; gauge values, which the source sets only to
`float64(i)` for integer `i`, are modelled by the integer itself (the
conversion is value-preserving on the snapshots at issue). External
collaborators (the sql.DB handle, strconv.ParseFloat, the logger) are
modelled at their interface boundary: a snapshot is an `Except`, parsing
is a `String → Option Int` parameter, the logger is a `List String`
accumulator.
-/

namespace GormProm

/-- Config from the source: DBName, StartServer, HTTPServerPort,
RefreshInterval. -/
structure Config where
  DBName : String
  StartServer : Bool
  HTTPServerPort : Nat
  RefreshInterval : Nat
deriving DecidableEq

def defaultRefreshInterval : Nat := 15

def defaultHTTPServerPort : Nat := 9100

/-- `sql.DBStats`: the snapshot returned by `db.Stats()`.  `WaitDuration`
is a `time.Duration`, i.e. a count of nanoseconds. -/
structure SqlDBStats where
  MaxOpenConnections : Int
  OpenConnections : Int
  InUse : Int
  Idle : Int
  WaitCount : Int
  WaitDuration : Int
  MaxIdleClosed : Int
  MaxLifetimeClosed : Int
deriving DecidableEq

/-- The values currently held by the eight gauges of the `DBStats`
struct of the source. -/
structure DBStatsValues where
  MaxOpenConnections : Int
  OpenConnections : Int
  InUse : Int
  Idle : Int
  WaitCount : Int
  WaitDuration : Int
  MaxIdleClosed : Int
  MaxLifetimeClosed : Int
deriving DecidableEq

/-- `prometheus.NewGauge` starts every gauge at 0. -/
def freshGauges : DBStatsValues :=
  { MaxOpenConnections := 0, OpenConnections := 0, InUse := 0, Idle := 0
    WaitCount := 0, WaitDuration := 0, MaxIdleClosed := 0, MaxLifetimeClosed := 0 }

/-- Exporter instance (`Prometheus` struct): its Config, the gauges of the
current activation, the stored DB handle (modelled by an id), and the
per-instance `sync.Once` state. -/
structure Prometheus where
  Config : Config
  DB : Option Nat
  DBStats : Option DBStatsValues
  OnceDone : Bool
deriving DecidableEq

/-- `New(config)`: applies the two zero-value defaults once, at
construction, and stores the config in a fresh exporter. -/
def New (config : Config) : Prometheus :=
  let config :=
    if config.RefreshInterval = 0 then
      { config with RefreshInterval := defaultRefreshInterval }
    else config
  let config :=
    if config.HTTPServerPort = 0 then
      { config with HTTPServerPort := defaultHTTPServerPort }
    else config
  { Config := config, DB := none, DBStats := none, OnceDone := false }

/-- Process-wide state: the prometheus default registry (as the list of
registered gauge names), the package-level `once` guarding the HTTP
server, and counters of the observable loop-start side effects. -/
structure ProcState where
  registry : List String
  httpOnce : Bool
  serverStarts : Nat
  refreshLoopStarts : Nat
deriving DecidableEq

def freshProc : ProcState :=
  { registry := [], httpOnce := false, serverStarts := 0, refreshLoopStarts := 0 }

/-- `prometheus.Register`: fails with an AlreadyRegisteredError when the
name collides with an already-registered collector. -/
def registerGauge (st : ProcState) (name : String) : ProcState × Option String :=
  if name ∈ st.registry then
    (st, some "duplicate metrics collector registration attempted")
  else
    ({ st with registry := name :: st.registry }, none)

/-- The registration loop of `Initialize`: `_ = prometheus.Register(...)`
for each field — the error is discarded. -/
def registerAll (st : ProcState) (names : List String) : ProcState :=
  names.foldl (fun s n => (registerGauge s n).1) st

/-- The metric-name prefix computed at the top of `Initialize`:
`"gorm_dbstats_"`, extended with `DBName ++ "_"` when DBName is set. -/
def dbStatsPrefix (dbName : String) : String :=
  if dbName ≠ "" then "gorm_dbstats_" ++ dbName ++ "_" else "gorm_dbstats_"

/-- The fixed counter suffixes of the eight gauges, in field order. -/
def statSuffixes : List String :=
  ["max_open_connections", "open_connections", "in_use", "idle",
   "wait_count", "wait_duration", "max_idle_closed", "max_lifetime_closed"]

/-- The eight gauge names built by one activation. -/
def metricNames (dbName : String) : List String :=
  [dbStatsPrefix dbName ++ "max_open_connections",
   dbStatsPrefix dbName ++ "open_connections",
   dbStatsPrefix dbName ++ "in_use",
   dbStatsPrefix dbName ++ "idle",
   dbStatsPrefix dbName ++ "wait_count",
   dbStatsPrefix dbName ++ "wait_duration",
   dbStatsPrefix dbName ++ "max_idle_closed",
   dbStatsPrefix dbName ++ "max_lifetime_closed"]

structure InitResult where
  proc : ProcState
  exporter : Prometheus
  err : Option String
deriving DecidableEq

/-- `(p *Prometheus) Initialize(db *gorm.DB) error`: stores the handle,
rebuilds the eight gauges, registers them discarding registration errors,
then under `p.Once` starts (a) the HTTP server — itself under the
package-level once — when StartServer is set, and (b) the refresh loop.
Always returns nil. -/
def Initialize (st : ProcState) (p : Prometheus) (db : Nat) : InitResult :=
  let p := { p with DB := some db, DBStats := some freshGauges }
  let st := registerAll st (metricNames p.Config.DBName)
  if p.OnceDone then
    { proc := st, exporter := p, err := none }
  else
    let st :=
      if p.Config.StartServer then
        if st.httpOnce then st
        else { st with httpOnce := true, serverStarts := st.serverStarts + 1 }
      else st
    { proc := { st with refreshLoopStarts := st.refreshLoopStarts + 1 },
      exporter := { p with OnceDone := true }, err := none }

/-- One pass of `(p *Prometheus) refresh()`: on a successful snapshot,
sets each of the eight gauges to the corresponding field; on failure,
logs one error and writes nothing. -/
def refresh (g : DBStatsValues) (log : List String)
    (snap : Except String SqlDBStats) : DBStatsValues × List String :=
  match snap with
  | Except.ok s =>
      ({ MaxOpenConnections := s.MaxOpenConnections
         OpenConnections := s.OpenConnections
         InUse := s.InUse
         Idle := s.Idle
         WaitCount := s.WaitCount
         WaitDuration := s.WaitDuration
         MaxIdleClosed := s.MaxIdleClosed
         MaxLifetimeClosed := s.MaxLifetimeClosed }, log)
  | Except.error e =>
      (g, log ++ ["gorm:prometheus failed to collect db status, got error: " ++ e])

/-- The refresh loop body `for range time.Tick(...) { p.refresh() }`,
run over a given sequence of snapshot outcomes (one per tick). -/
def refreshLoop (g : DBStatsValues) (log : List String) :
    List (Except String SqlDBStats) → DBStatsValues × List String
  | [] => (g, log)
  | s :: rest =>
      let r := refresh g log s
      refreshLoop r.1 r.2 rest

/-- `Initialize` called `n` times in a row on the same exporter and
handle, threading process and exporter state. -/
def activateTimes : Nat → ProcState → Prometheus → Nat → ProcState × Prometheus
  | 0, st, p, _ => (st, p)
  | n + 1, st, p, db =>
      let r := Initialize st p db
      activateTimes n r.proc r.exporter db

/-- A world of several exporter instances sharing one process state. -/
structure World where
  proc : ProcState
  exps : List Prometheus
deriving DecidableEq

/-- Placeholder exporter used for out-of-range indices: it never requests
a server and its once has already fired, so events on it are no-ops. -/
def inertExporter : Prometheus :=
  { Config := { DBName := "", StartServer := false,
                HTTPServerPort := defaultHTTPServerPort,
                RefreshInterval := defaultRefreshInterval }
    DB := none, DBStats := none, OnceDone := true }

/-- One activation event: exporter `i` has its `Initialize` called. -/
def stepEvent (w : World) (i : Nat) (db : Nat) : World :=
  let p := w.exps.getD i inertExporter
  let r := Initialize w.proc p db
  { proc := r.proc, exps := w.exps.set i r.exporter }

/-- A sequence of activation events on the exporters of a world. -/
def runEvents (db : Nat) : World → List Nat → World
  | w, [] => w
  | w, i :: rest => runEvents db (stepEvent w i db) rest

/-! The MySQL status plugin (`type Mysql` with `Initialize` and `Set`).
Its `status` map is modelled by an association list keyed by variable
name; `strconv.ParseFloat` is an external collaborator modelled by a
`parse : String → Option Int` parameter (`none` = parse failure). -/

def statusPrefix : String := "gorm_status_"

structure MysqlPlugin where
  StatusVariableName : List String
  status : List (String × Int)
deriving DecidableEq

/-- One row yielded by the `SHOW STATUS` cursor: either `rows.Scan`
fails, or it produces a (variable name, variable value) pair. -/
inductive Row where
  | scanErr (e : String) : Row
  | entry (variableName variableValue : String) : Row
deriving DecidableEq

/-- Map lookup on the association list (`m.status[v]`). -/
def lookupVal : List (String × Int) → String → Option Int
  | [], _ => none
  | (k, w) :: rest, v => if k = v then some w else lookupVal rest v

/-- Map write to an existing key (`m.status[v].Set(value)`); a missing
key is left untouched, matching the `ok` guard in the source. -/
def updateVal : List (String × Int) → String → Int → List (String × Int)
  | [], _, _ => []
  | (k, w) :: rest, v, x =>
      if k = v then (k, x) :: rest else (k, w) :: updateVal rest v x

/-- Map assignment (`m.status[v] = gauge`): replace or append. -/
def insertGauge (st : List (String × Int)) (v : String) : List (String × Int) :=
  if (lookupVal st v).isSome then updateVal st v 0 else st ++ [(v, 0)]

/-- `(m *Mysql) Initialize(label)`: builds one zero gauge per listed
status variable (gauges start at 0; labels carry no value content). -/
def MysqlInitialize (svn : List String) : MysqlPlugin :=
  { StatusVariableName := svn, status := svn.foldl insertGauge [] }

/-- The inner loop of `Set` for one scanned row: walk the listed
variable names; on a name match, parse the value — logging and skipping
on parse failure — and set the gauge when the map holds the key. -/
def setEntry (parse : String → Option Int) (svn : List String)
    (name value : String) (acc : List (String × Int) × List String) :
    List (String × Int) × List String :=
  match svn with
  | [] => acc
  | v :: rest =>
      let acc :=
        if v = name then
          match parse value with
          | none =>
              (acc.1, acc.2 ++ ["gorm:prometheus parse float got error: " ++ value])
          | some x =>
              if (lookupVal acc.1 v).isSome then (updateVal acc.1 v x, acc.2) else acc
        else acc
      setEntry parse rest name value acc

/-- The outer loop of `Set` over the rows: a scan failure is logged and
the row skipped; otherwise the inner loop runs. -/
def setRows (parse : String → Option Int) (svn : List String) :
    List Row → List (String × Int) × List String → List (String × Int) × List String
  | [], acc => acc
  | Row.scanErr e :: rest, acc =>
      setRows parse svn rest (acc.1, acc.2 ++ ["gorm:prometheus scan got error: " ++ e])
  | Row.entry n v :: rest, acc =>
      setRows parse svn rest (setEntry parse svn n v acc)

/-- `(m *Mysql) Set(db)` on a successfully opened cursor: one sampling
pass over the given rows. -/
def MysqlSet (parse : String → Option Int) (m : MysqlPlugin) (rows : List Row)
    (log : List String) : MysqlPlugin × List String :=
  let r := setRows parse m.StatusVariableName rows (m.status, log)
  ({ m with status := r.1 }, r.2)

/-- A row on which the pass fails: a scan error, or a listed variable
whose value does not parse. -/
def rowFails (parse : String → Option Int) (svn : List String) : Row → Prop
  | Row.scanErr _ => True
  | Row.entry n val => n ∈ svn ∧ parse val = none

instance (parse : String → Option Int) (svn : List String) (r : Row) :
    Decidable (rowFails parse svn r) := by
  cases r <;> simp only [rowFails] <;> infer_instance

/-- Whether a row carries (any value for) the status variable `v`. -/
def mentionsVar (v : String) : Row → Bool
  | Row.scanErr _ => false
  | Row.entry n _ => n = v

/-- Whether a row would write the gauge of `v`: it names `v` and its
value parses. -/
def writesVar (parse : String → Option Int) (v : String) : Row → Bool
  | Row.scanErr _ => false
  | Row.entry n s => n = v && (parse s).isSome

/-! Helper lemmas about registration. -/

theorem registerAll_of_all_mem (names : List String) :
    ∀ st : ProcState, (∀ n ∈ names, n ∈ st.registry) → registerAll st names = st := by
  induction names with
  | nil => intro st _; rfl
  | cons n rest ih =>
      intro st h
      have hn : n ∈ st.registry := h n (List.mem_cons_self n rest)
      show registerAll (registerGauge st n).1 rest = st
      rw [show (registerGauge st n).1 = st by simp [registerGauge, hn]]
      exact ih st fun m hm => h m (List.mem_cons_of_mem n hm)

theorem registerGauge_counters (st : ProcState) (n : String) :
    (registerGauge st n).1.httpOnce = st.httpOnce ∧
    (registerGauge st n).1.serverStarts = st.serverStarts ∧
    (registerGauge st n).1.refreshLoopStarts = st.refreshLoopStarts := by
  unfold registerGauge; split <;> simp

theorem registerAll_counters (names : List String) :
    ∀ st : ProcState,
      (registerAll st names).httpOnce = st.httpOnce ∧
      (registerAll st names).serverStarts = st.serverStarts ∧
      (registerAll st names).refreshLoopStarts = st.refreshLoopStarts := by
  induction names with
  | nil => intro st; exact ⟨rfl, rfl, rfl⟩
  | cons n rest ih =>
      intro st
      have h1 := registerGauge_counters st n
      have h2 := ih (registerGauge st n).1
      exact ⟨h2.1.trans h1.1, h2.2.1.trans h1.2.1, h2.2.2.trans h1.2.2⟩

/-! Helper lemmas about `New` and `Initialize`. -/

theorem New_RefreshInterval (c : Config) :
    (New c).Config.RefreshInterval =
      (if c.RefreshInterval = 0 then defaultRefreshInterval else c.RefreshInterval) := by
  unfold New; dsimp only; split <;> (try split) <;> simp_all

theorem New_HTTPServerPort (c : Config) :
    (New c).Config.HTTPServerPort =
      (if c.HTTPServerPort = 0 then defaultHTTPServerPort else c.HTTPServerPort) := by
  unfold New; dsimp only; split <;> (try split) <;> simp_all

theorem New_DBName (c : Config) : (New c).Config.DBName = c.DBName := by
  unfold New; dsimp only; split <;> (try split) <;> simp_all

theorem New_StartServer (c : Config) : (New c).Config.StartServer = c.StartServer := by
  unfold New; dsimp only; split <;> (try split) <;> simp_all

theorem New_OnceDone (c : Config) : (New c).OnceDone = false := rfl

theorem Initialize_Config (st : ProcState) (p : Prometheus) (db : Nat) :
    (Initialize st p db).exporter.Config = p.Config := by
  unfold Initialize; dsimp only; split <;> rfl

theorem Initialize_OnceDone (st : ProcState) (p : Prometheus) (db : Nat) :
    (Initialize st p db).exporter.OnceDone = true := by
  unfold Initialize; dsimp only; split <;> simp_all

theorem Initialize_counters_skip (st : ProcState) (p : Prometheus) (db : Nat)
    (h : p.OnceDone = true) :
    (Initialize st p db).proc.httpOnce = st.httpOnce ∧
    (Initialize st p db).proc.serverStarts = st.serverStarts ∧
    (Initialize st p db).proc.refreshLoopStarts = st.refreshLoopStarts := by
  unfold Initialize
  dsimp only
  rw [if_pos h]
  exact registerAll_counters _ st

theorem Initialize_counters_first (st : ProcState) (p : Prometheus) (db : Nat)
    (h : p.OnceDone = false) :
    (Initialize st p db).proc.refreshLoopStarts = st.refreshLoopStarts + 1 ∧
    (Initialize st p db).proc.httpOnce = (st.httpOnce || p.Config.StartServer) ∧
    (Initialize st p db).proc.serverStarts =
      st.serverStarts + (if p.Config.StartServer && !st.httpOnce then 1 else 0) := by
  unfold Initialize
  dsimp only
  rw [if_neg (by simp [h])]
  have hc := registerAll_counters (metricNames p.Config.DBName) st
  dsimp only
  by_cases hs : p.Config.StartServer = true
  · rw [if_pos hs]
    by_cases ho : (registerAll st (metricNames p.Config.DBName)).httpOnce = true
    · rw [if_pos ho]
      rw [hc.1] at ho
      simp [hc.1, hc.2.1, hc.2.2, hs, ho]
    · rw [if_neg ho]
      rw [hc.1] at ho
      simp only [Bool.not_eq_true] at ho
      simp [hc.1, hc.2.1, hc.2.2, hs, ho]
  · simp only [Bool.not_eq_true] at hs
    rw [if_neg (by simp [hs])]
    simp [hc.1, hc.2.1, hc.2.2, hs]

theorem activateTimes_counters_done (db : Nat) (n : Nat) :
    ∀ (st : ProcState) (p : Prometheus), p.OnceDone = true →
      (activateTimes n st p db).1.httpOnce = st.httpOnce ∧
      (activateTimes n st p db).1.serverStarts = st.serverStarts ∧
      (activateTimes n st p db).1.refreshLoopStarts = st.refreshLoopStarts := by
  induction n with
  | zero => intro st p _; exact ⟨rfl, rfl, rfl⟩
  | succ n ih =>
      intro st p h
      have hskip := Initialize_counters_skip st p db h
      have hdone := Initialize_OnceDone st p db
      have hrec := ih (Initialize st p db).proc (Initialize st p db).exporter hdone
      exact ⟨hrec.1.trans hskip.1, hrec.2.1.trans hskip.2.1, hrec.2.2.trans hskip.2.2⟩

/-- Claim C1: starting from a fresh process, calling `Initialize` on a
newly constructed exporter once and then N additional times starts the
background refresh loop exactly once, and starts the HTTP exposition
server exactly once when it is enabled and never otherwise: the
loop-start side effects guarded by the one-shot primitive run only on
the first call. -/
theorem activate_starts_loops_exactly_once (c : Config) (db : Nat) (n : Nat) :
    (activateTimes (n + 1) freshProc (New c) db).1.refreshLoopStarts = 1 ∧
    (activateTimes (n + 1) freshProc (New c) db).1.serverStarts =
      (if c.StartServer then 1 else 0) := by
  have hfirst := Initialize_counters_first freshProc (New c) db (New_OnceDone c)
  have hdone := Initialize_OnceDone freshProc (New c) db
  have hrest := activateTimes_counters_done db n (Initialize freshProc (New c) db).proc
      (Initialize freshProc (New c) db).exporter hdone
  have hstep : activateTimes (n + 1) freshProc (New c) db =
      activateTimes n (Initialize freshProc (New c) db).proc
        (Initialize freshProc (New c) db).exporter db := rfl
  rw [hstep]
  constructor
  · rw [hrest.2.2, hfirst.1]; rfl
  · rw [hrest.2.1, hfirst.2.2, New_StartServer]
    cases hs : c.StartServer <;> simp [freshProc]

/-! Helper lemmas for the multi-exporter world of C5. -/

theorem getD_set_self {α : Type} (l : List α) (i : Nat) (b d : α) (h : i < l.length) :
    (l.set i b).getD i d = b := by
  induction l generalizing i with
  | nil => simp at h
  | cons a t ih =>
      cases i with
      | zero => rfl
      | succ n => simpa [List.getD_cons_succ] using ih n (by simpa using h)

theorem getD_set_ne {α : Type} (l : List α) {i j : Nat} (b d : α) (h : i ≠ j) :
    (l.set i b).getD j d = l.getD j d := by
  induction l generalizing i j with
  | nil => simp
  | cons a t ih =>
      cases i with
      | zero =>
          cases j with
          | zero => exact absurd rfl h
          | succ m => simp [List.getD_cons_succ]
      | succ n =>
          cases j with
          | zero => simp [List.getD_cons_zero]
          | succ m =>
              simpa [List.getD_cons_succ] using ih (by omega)

theorem any_congrArg {α : Type} (l : List α) (f g : α → Bool) (h : ∀ x, f x = g x) :
    l.any f = l.any g := by
  induction l <;> simp_all

theorem Initialize_httpOnce (st : ProcState) (p : Prometheus) (db : Nat) :
    (Initialize st p db).proc.httpOnce =
      (st.httpOnce || (!p.OnceDone && p.Config.StartServer)) := by
  cases h : p.OnceDone with
  | true => simp [(Initialize_counters_skip st p db h).1]
  | false => simp [(Initialize_counters_first st p db h).2.1]

theorem Initialize_serverStarts_inv (st : ProcState) (p : Prometheus) (db : Nat)
    (h : st.serverStarts = (if st.httpOnce then 1 else 0)) :
    (Initialize st p db).proc.serverStarts =
      (if (Initialize st p db).proc.httpOnce then 1 else 0) := by
  cases ho : p.OnceDone with
  | true =>
      have hs := Initialize_counters_skip st p db ho
      rw [hs.2.1, hs.1, h]
  | false =>
      have hf := Initialize_counters_first st p db ho
      rw [hf.2.2, hf.2.1, h]
      cases hh : st.httpOnce <;> cases hss : p.Config.StartServer <;> simp

theorem runEvents_serverStarts_aux (db : Nat) (events : List Nat) :
    ∀ (st : ProcState) (exps : List Prometheus),
      st.serverStarts = (if st.httpOnce then 1 else 0) →
      (∀ j, (exps.getD j inertExporter).OnceDone = true →
            (exps.getD j inertExporter).Config.StartServer = true →
            st.httpOnce = true) →
      (runEvents db ⟨st, exps⟩ events).proc.serverStarts =
        (if (st.httpOnce ||
              events.any fun i => (exps.getD i inertExporter).Config.StartServer)
         then 1 else 0) ∧
      (runEvents db ⟨st, exps⟩ events).proc.httpOnce =
        (st.httpOnce ||
          events.any fun i => (exps.getD i inertExporter).Config.StartServer) := by
  induction events with
  | nil =>
      intro st exps hinv _
      simpa using ⟨hinv, rfl⟩
  | cons i rest ih =>
      intro st exps hinv hguard
      have hrun : runEvents db ⟨st, exps⟩ (i :: rest) =
          runEvents db (stepEvent ⟨st, exps⟩ i db) rest := rfl
      set p := exps.getD i inertExporter with hp
      have hstep : stepEvent ⟨st, exps⟩ i db =
          ⟨(Initialize st p db).proc, exps.set i (Initialize st p db).exporter⟩ := rfl
      set st2 := (Initialize st p db).proc with hst2
      set exps2 := exps.set i (Initialize st p db).exporter with hexps2
      have hcfg : ∀ j, (exps2.getD j inertExporter).Config =
          (exps.getD j inertExporter).Config := by
        intro j
        by_cases hij : i = j
        · subst hij
          by_cases hlt : i < exps.length
          · rw [hexps2, getD_set_self _ _ _ _ hlt, Initialize_Config]
          · rw [hexps2, List.set_eq_of_length_le (by omega)]
        · rw [hexps2, getD_set_ne _ _ _ hij]
      have honce : st2.httpOnce = (st.httpOnce || (!p.OnceDone && p.Config.StartServer)) :=
        Initialize_httpOnce st p db
      have hinv2 : st2.serverStarts = (if st2.httpOnce then 1 else 0) :=
        Initialize_serverStarts_inv st p db hinv
      have hguard2 : ∀ j, (exps2.getD j inertExporter).OnceDone = true →
          (exps2.getD j inertExporter).Config.StartServer = true →
          st2.httpOnce = true := by
        intro j hdone hss
        by_cases hij : i = j
        · subst hij
          by_cases hlt : i < exps.length
          · rw [hexps2, getD_set_self _ _ _ _ hlt] at hdone hss
            rw [Initialize_Config] at hss
            cases hod : p.OnceDone with
            | true =>
                have := hguard i (by rw [← hp]; exact hod) (by rw [← hp]; exact hss)
                rw [honce, this]
                rfl
            | false =>
                rw [honce, hod, hss]
                simp
          · rw [hexps2, List.set_eq_of_length_le (by omega)] at hdone hss
            have hoob : exps.getD i inertExporter = inertExporter := by
              rw [List.getD_eq_getElem?_getD, List.getElem?_eq_none (by omega)]
              rfl
            rw [honce]
            have := hguard i hdone hss
            rw [this]
            rfl
        · rw [hexps2, getD_set_ne _ _ _ hij] at hdone hss
          have := hguard j hdone hss
          rw [honce, this]
          rfl
      have hrec := ih st2 exps2 hinv2 hguard2
      have hany : (rest.any fun j => (exps2.getD j inertExporter).Config.StartServer) =
          (rest.any fun j => (exps.getD j inertExporter).Config.StartServer) :=
        any_congrArg _ _ _ (fun j => by rw [hcfg j])
      have hcond : (st2.httpOnce ||
            rest.any fun j => (exps2.getD j inertExporter).Config.StartServer) =
          (st.httpOnce ||
            (i :: rest).any fun j => (exps.getD j inertExporter).Config.StartServer) := by
        rw [hany, List.any_cons, honce, ← hp]
        cases hod : p.OnceDone with
        | false => simp [Bool.or_assoc]
        | true =>
            cases hss : p.Config.StartServer with
            | false => simp
            | true =>
                have := hguard i (by rw [← hp]; exact hod) (by rw [← hp]; exact hss)
                simp [this]
      rw [hrun, hstep]
      exact ⟨by rw [hrec.1, hcond], by rw [hrec.2, hcond]⟩

/-- Claim C5: across any number of exporter instances and any sequence
of activation events in one fresh process, the HTTP exposition server is
started exactly once when some event activates an exporter that requests
a server and never otherwise — in particular at most once process-wide;
every request after the first is a silent no-op. -/
theorem http_server_starts_at_most_once (db : Nat) (events : List Nat)
    (exps : List Prometheus) (hfresh : ∀ p ∈ exps, p.OnceDone = false) :
    (runEvents db ⟨freshProc, exps⟩ events).proc.serverStarts =
      (if events.any (fun i => (exps.getD i inertExporter).Config.StartServer)
       then 1 else 0) ∧
    (runEvents db ⟨freshProc, exps⟩ events).proc.serverStarts ≤ 1 := by
  have hguard : ∀ j, (exps.getD j inertExporter).OnceDone = true →
      (exps.getD j inertExporter).Config.StartServer = true →
      freshProc.httpOnce = true := by
    intro j hdone hss
    by_cases hlt : j < exps.length
    · have hmem : exps.getD j inertExporter ∈ exps := by
        rw [List.getD_eq_getElem?_getD, List.getElem?_eq_getElem hlt]
        exact List.getElem_mem hlt
      rw [hfresh _ hmem] at hdone
      exact absurd hdone (by simp)
    · have hoob : exps.getD j inertExporter = inertExporter := by
        rw [List.getD_eq_getElem?_getD, List.getElem?_eq_none (by omega)]
        rfl
      rw [hoob] at hss
      exact absurd hss (by decide)
  have h := runEvents_serverStarts_aux db events freshProc exps rfl hguard
  constructor
  · simpa [freshProc] using h.1
  · rw [h.1]
    split <;> omega

/-- Witness for C5: two fresh exporters, of which only the first
requests a server, activated repeatedly; the server starts once. -/
theorem http_server_starts_at_most_once_witness :
    (runEvents 3 ⟨freshProc,
        [New { DBName := "a", StartServer := true, HTTPServerPort := 0,
               RefreshInterval := 0 },
         New { DBName := "b", StartServer := false, HTTPServerPort := 0,
               RefreshInterval := 0 }]⟩ [0, 1, 0, 1]).proc.serverStarts =
      (if [0, 1, 0, 1].any (fun i =>
          (([New { DBName := "a", StartServer := true, HTTPServerPort := 0,
                   RefreshInterval := 0 },
             New { DBName := "b", StartServer := false, HTTPServerPort := 0,
                   RefreshInterval := 0 }].getD i
              inertExporter)).Config.StartServer)
       then 1 else 0) ∧
    (runEvents 3 ⟨freshProc,
        [New { DBName := "a", StartServer := true, HTTPServerPort := 0,
               RefreshInterval := 0 },
         New { DBName := "b", StartServer := false, HTTPServerPort := 0,
               RefreshInterval := 0 }]⟩ [0, 1, 0, 1]).proc.serverStarts ≤ 1 :=
  http_server_starts_at_most_once 3 [0, 1, 0, 1] _ (by decide)

/-- Claim C2: one successful refresh pass sets each of the eight gauges
to exactly the corresponding snapshot field (the float64 image of the
integer counter, with the wait duration kept in the snapshot's native
nanoseconds), touching the log not at all; in particular the example
snapshot {10, 4, 1, 3, 7, 500000000ns, 2, 0} yields exactly those eight
gauge readings. -/
theorem refresh_ok_sets_all_eight (g : DBStatsValues) (log : List String)
    (s : SqlDBStats) :
    refresh g log (Except.ok s) =
      ({ MaxOpenConnections := s.MaxOpenConnections
         OpenConnections := s.OpenConnections
         InUse := s.InUse
         Idle := s.Idle
         WaitCount := s.WaitCount
         WaitDuration := s.WaitDuration
         MaxIdleClosed := s.MaxIdleClosed
         MaxLifetimeClosed := s.MaxLifetimeClosed }, log) ∧
    refresh freshGauges []
        (Except.ok { MaxOpenConnections := 10, OpenConnections := 4, InUse := 1,
                     Idle := 3, WaitCount := 7, WaitDuration := 500000000,
                     MaxIdleClosed := 2, MaxLifetimeClosed := 0 }) =
      ({ MaxOpenConnections := 10, OpenConnections := 4, InUse := 1, Idle := 3,
         WaitCount := 7, WaitDuration := 500000000, MaxIdleClosed := 2,
         MaxLifetimeClosed := 0 }, []) :=
  ⟨rfl, rfl⟩

/-- Claim C3: a failing snapshot on a tick leaves every one of the eight
gauge values exactly as before the tick, appends exactly one error entry
to the log, and the refresh loop goes on to process the remaining ticks
unchanged. -/
theorem refresh_error_is_skip_logged (g : DBStatsValues) (log : List String)
    (e : String) (rest : List (Except String SqlDBStats)) :
    (refresh g log (Except.error e)).1 = g ∧
    (refresh g log (Except.error e)).2 =
      log ++ ["gorm:prometheus failed to collect db status, got error: " ++ e] ∧
    refreshLoop g log (Except.error e :: rest) =
      refreshLoop g
        (log ++ ["gorm:prometheus failed to collect db status, got error: " ++ e])
        rest :=
  ⟨rfl, rfl, rfl⟩

/-- Claim C7: `New` applies the two zero-value defaults (refresh
interval 15, HTTP port 9100) exactly once at construction, leaves every
other field unchanged, and `Initialize` never touches the stored config,
so re-activation cannot re-apply defaults. -/
theorem New_applies_defaults_once (c : Config) (st : ProcState) (p : Prometheus)
    (db : Nat) :
    (New c).Config.RefreshInterval =
      (if c.RefreshInterval = 0 then defaultRefreshInterval else c.RefreshInterval) ∧
    (New c).Config.HTTPServerPort =
      (if c.HTTPServerPort = 0 then defaultHTTPServerPort else c.HTTPServerPort) ∧
    (New c).Config.DBName = c.DBName ∧
    (New c).Config.StartServer = c.StartServer ∧
    (Initialize st p db).exporter.Config = p.Config := by
  refine ⟨?_, ?_, ?_, ?_, ?_⟩
  · unfold New; dsimp only; split <;> (try split) <;> simp_all
  · unfold New; dsimp only; split <;> (try split) <;> simp_all
  · unfold New; dsimp only; split <;> (try split) <;> simp_all
  · unfold New; dsimp only; split <;> (try split) <;> simp_all
  · unfold Initialize; dsimp only; split <;> rfl

/-- Claim C8: for every database handle, exporter state and process
state, `Initialize` returns nil; no failure of registration or of the
started sub-resources is ever propagated to the caller. -/
theorem Initialize_never_fails (st : ProcState) (p : Prometheus) (db : Nat) :
    (Initialize st p db).err = none := by
  unfold Initialize; dsimp only; split <;> rfl

/-- Claim C4 counterexample: a concrete repeat activation in which every
one of the eight instrument names is already registered — so every
registration call reports a conflict — and yet `Initialize` returns nil,
refuting the claim that the conflict is surfaced as a non-nil error. -/
theorem Initialize_conflict_returns_nil_cex :
    (∀ n ∈ metricNames "",
        n ∈ (Initialize freshProc
              (New { DBName := "", StartServer := false, HTTPServerPort := 0,
                     RefreshInterval := 0 }) 0).proc.registry ∧
        (registerGauge
            (Initialize freshProc
              (New { DBName := "", StartServer := false, HTTPServerPort := 0,
                     RefreshInterval := 0 }) 0).proc n).2.isSome) ∧
    (Initialize
        (Initialize freshProc
          (New { DBName := "", StartServer := false, HTTPServerPort := 0,
                 RefreshInterval := 0 }) 0).proc
        (Initialize freshProc
          (New { DBName := "", StartServer := false, HTTPServerPort := 0,
                 RefreshInterval := 0 }) 0).exporter 0).err = none := by
  decide

/-- Claim C4 amended: when a repeat activation registers instrument
names that all collide with already-registered ones, `Initialize`
silently swallows the registration conflicts: it returns nil and leaves
the registry unchanged, surfacing nothing to its caller. -/
theorem Initialize_swallows_registration_conflict (st : ProcState) (p : Prometheus)
    (db : Nat) (h : ∀ n ∈ metricNames p.Config.DBName, n ∈ st.registry) :
    (Initialize st p db).err = none ∧
    (Initialize st p db).proc.registry = st.registry := by
  unfold Initialize
  dsimp only
  rw [registerAll_of_all_mem _ _ h]
  constructor
  · split <;> rfl
  · split
    · rfl
    · dsimp only
      split
      · split <;> rfl
      · rfl

/-- Witness for the amended C4 at a concrete pre-registered state. -/
theorem Initialize_swallows_registration_conflict_witness :
    (Initialize (registerAll freshProc (metricNames "db1"))
        { Config := { DBName := "db1", StartServer := false, HTTPServerPort := 9100,
                      RefreshInterval := 15 },
          DB := none, DBStats := none, OnceDone := false } 7).err = none ∧
    (Initialize (registerAll freshProc (metricNames "db1"))
        { Config := { DBName := "db1", StartServer := false, HTTPServerPort := 9100,
                      RefreshInterval := 15 },
          DB := none, DBStats := none, OnceDone := false } 7).proc.registry =
      (registerAll freshProc (metricNames "db1")).registry :=
  Initialize_swallows_registration_conflict _ _ 7 (by decide)

/-- Claim C6: each of the eight instrument names is the concatenation of
the fixed prefix, the optional DB-name segment (present exactly when the
DB name is non-empty), and the fixed counter suffix; two exporters named
"db1" and "db2" share no name, while two exporters with the DB name
unset collide on every one of the eight names (each name of the second
build is already in the registry after the first build registers). -/
theorem metricNames_concatenation :
    (∀ dbName, metricNames dbName =
        statSuffixes.map (fun s => dbStatsPrefix dbName ++ s)) ∧
    (∀ dbName, dbStatsPrefix dbName =
        "gorm_dbstats_" ++ (if dbName = "" then "" else dbName ++ "_")) ∧
    (∀ n ∈ metricNames "db1", n ∉ metricNames "db2") ∧
    (∀ n ∈ metricNames "", n ∈ (registerAll freshProc (metricNames "")).registry) := by
  refine ⟨fun dbName => rfl, fun dbName => ?_, by decide, by decide⟩
  by_cases h : dbName = ""
  · subst h
    simp [dbStatsPrefix, String.append_empty]
  · simp only [dbStatsPrefix, ne_eq, h, not_false_eq_true, if_true, if_neg h]
    exact String.append_assoc _ _ _

/-! Helper lemmas about the MySQL plugin's status map and sampling pass. -/

theorem lookupVal_isSome_iff (st : List (String × Int)) (v : String) :
    (lookupVal st v).isSome ↔ v ∈ st.map Prod.fst := by
  induction st with
  | nil => simp [lookupVal]
  | cons kv rest ih =>
      obtain ⟨k, w⟩ := kv
      by_cases h : k = v
      · subst h
        simp [lookupVal]
      · simp [lookupVal, h, ih, Ne.symm h]

theorem updateVal_keys (st : List (String × Int)) (k : String) (x : Int) :
    (updateVal st k x).map Prod.fst = st.map Prod.fst := by
  induction st with
  | nil => rfl
  | cons kv rest ih =>
      obtain ⟨a, w⟩ := kv
      by_cases h : a = k
      · simp [updateVal, h]
      · simp [updateVal, h, ih]

theorem updateVal_lookup_ne (st : List (String × Int)) (k : String) (x : Int)
    {v : String} (h : v ≠ k) :
    lookupVal (updateVal st k x) v = lookupVal st v := by
  induction st with
  | nil => rfl
  | cons kv rest ih =>
      obtain ⟨a, w⟩ := kv
      by_cases ha : a = k
      · subst ha
        simp [updateVal, lookupVal, Ne.symm h]
      · simp [updateVal, ha, lookupVal]
        split <;> simp [ih]

theorem updateVal_lookup_self (st : List (String × Int)) (k : String) (x : Int)
    (h : (lookupVal st k).isSome) :
    lookupVal (updateVal st k x) k = some x := by
  induction st with
  | nil => simp [lookupVal] at h
  | cons kv rest ih =>
      obtain ⟨a, w⟩ := kv
      by_cases ha : a = k
      · subst ha
        simp [updateVal, lookupVal]
      · simp only [lookupVal, ha, if_false, if_neg ha] at h ⊢
        simp only [updateVal, if_neg ha]
        simp only [lookupVal, if_neg ha]
        exact ih h

theorem setEntry_keys (parse : String → Option Int) (svn : List String)
    (name value : String) :
    ∀ acc, (setEntry parse svn name value acc).1.map Prod.fst = acc.1.map Prod.fst := by
  induction svn with
  | nil => intro acc; rfl
  | cons v rest ih =>
      intro acc
      show (setEntry parse rest name value _).1.map Prod.fst = _
      rw [ih]
      by_cases hv : v = name
      · simp only [hv, if_true]
        cases hp : parse value with
        | none => rfl
        | some x =>
            by_cases hs : (lookupVal acc.1 name).isSome
            · simp [hp, hs, updateVal_keys]
            · simp [hp, hs]
      · simp [hv]

theorem setEntry_lookup_ne (parse : String → Option Int) (svn : List String)
    (name value : String) {v : String} (h : v ≠ name) :
    ∀ acc, lookupVal (setEntry parse svn name value acc).1 v = lookupVal acc.1 v := by
  induction svn with
  | nil => intro acc; rfl
  | cons u rest ih =>
      intro acc
      show lookupVal (setEntry parse rest name value _).1 v = _
      rw [ih]
      by_cases hu : u = name
      · simp only [hu, if_true]
        cases hp : parse value with
        | none => rfl
        | some x =>
            by_cases hs : (lookupVal acc.1 name).isSome
            · simp [hp, hs, updateVal_lookup_ne _ _ _ h]
            · simp [hp, hs]
      · simp [hu]

theorem setEntry_notin (parse : String → Option Int) (svn : List String)
    (name value : String) (h : name ∉ svn) :
    ∀ acc, setEntry parse svn name value acc = acc := by
  induction svn with
  | nil => intro acc; rfl
  | cons u rest ih =>
      intro acc
      have hu : u ≠ name := fun he => h (he ▸ List.mem_cons_self u rest)
      have hrest : name ∉ rest := fun hm => h (List.mem_cons_of_mem u hm)
      show setEntry parse rest name value _ = acc
      simp only [hu, if_false]
      exact ih hrest acc

theorem setEntry_log_mono (parse : String → Option Int) (svn : List String)
    (name value : String) :
    ∀ acc, acc.2.length ≤ (setEntry parse svn name value acc).2.length := by
  induction svn with
  | nil => intro acc; exact Nat.le_refl _
  | cons u rest ih =>
      intro acc
      show acc.2.length ≤ (setEntry parse rest name value _).2.length
      by_cases hu : u = name
      · simp only [hu, if_true]
        cases hp : parse value with
        | none =>
            refine Nat.le_trans ?_ (ih _)
            simp
        | some x =>
            by_cases hs : (lookupVal acc.1 u).isSome
            · rw [hu] at hs
              have hstep := ih (updateVal acc.1 name x, acc.2)
              simpa [hp, hs] using hstep
            · rw [hu] at hs
              have hstep := ih acc
              simpa [hp, hs] using hstep
      · simpa [hu] using ih acc

theorem setEntry_badparse (parse : String → Option Int) (svn : List String)
    (name value : String) (h : parse value = none) :
    ∀ acc, (setEntry parse svn name value acc).1 = acc.1 ∧
      (name ∈ svn → acc.2.length < (setEntry parse svn name value acc).2.length) := by
  induction svn with
  | nil => intro acc; exact ⟨rfl, by simp⟩
  | cons u rest ih =>
      intro acc
      by_cases hu : u = name
      · constructor
        · show (setEntry parse rest name value _).1 = acc.1
          simp only [hu, if_true, h]
          exact (ih _).1
        · intro _
          show acc.2.length < (setEntry parse rest name value _).2.length
          simp only [hu, if_true, h]
          refine Nat.lt_of_lt_of_le ?_ (setEntry_log_mono parse rest name value _)
          simp
      · constructor
        · show (setEntry parse rest name value _).1 = acc.1
          simp only [hu, if_false]
          exact (ih acc).1
        · intro hmem
          have : name ∈ rest := by
            cases List.mem_cons.mp hmem with
            | inl he => exact absurd he.symm hu
            | inr hr => exact hr
          show acc.2.length < (setEntry parse rest name value _).2.length
          simp only [hu, if_false]
          exact (ih acc).2 this

theorem setEntry_lookup_stay (parse : String → Option Int) (svn : List String)
    (name value : String) (x : Int) (hx : parse value = some x) :
    ∀ acc, lookupVal acc.1 name = some x →
      lookupVal (setEntry parse svn name value acc).1 name = some x := by
  induction svn with
  | nil => intro acc h; exact h
  | cons u rest ih =>
      intro acc h
      show lookupVal (setEntry parse rest name value _).1 name = some x
      by_cases hu : u = name
      · simp only [hu, if_true, hx]
        have hsome : (lookupVal acc.1 name).isSome = true := by rw [h]; rfl
        simp only [hsome, if_true]
        exact ih _ (by
          simpa using updateVal_lookup_self acc.1 name x hsome)
      · simp only [hu, if_false]
        exact ih acc h

theorem setEntry_lookup_hit (parse : String → Option Int) (svn : List String)
    (name value : String) (x : Int) (hx : parse value = some x) (hmem : name ∈ svn) :
    ∀ acc, (lookupVal acc.1 name).isSome →
      lookupVal (setEntry parse svn name value acc).1 name = some x := by
  induction svn with
  | nil => cases hmem
  | cons u rest ih =>
      intro acc hsome
      show lookupVal (setEntry parse rest name value _).1 name = some x
      by_cases hu : u = name
      · simp only [hu, if_true, hx, hsome, if_true]
        exact setEntry_lookup_stay parse rest name value x hx _
          (updateVal_lookup_self acc.1 name x hsome)
      · have hrest : name ∈ rest := by
          cases List.mem_cons.mp hmem with
          | inl he => exact absurd he.symm hu
          | inr hr => exact hr
        simp only [hu, if_false]
        exact ih hrest acc hsome

theorem setRows_append (parse : String → Option Int) (svn : List String)
    (as bs : List Row) :
    ∀ acc, setRows parse svn (as ++ bs) acc = setRows parse svn bs (setRows parse svn as acc) := by
  induction as with
  | nil => intro acc; rfl
  | cons r rest ih =>
      intro acc
      cases r with
      | scanErr e => exact ih _
      | entry n v => exact ih _

theorem setRows_keys (parse : String → Option Int) (svn : List String)
    (rows : List Row) :
    ∀ acc, (setRows parse svn rows acc).1.map Prod.fst = acc.1.map Prod.fst := by
  induction rows with
  | nil => intro acc; rfl
  | cons r rest ih =>
      intro acc
      cases r with
      | scanErr e => exact ih _
      | entry n v => exact (ih _).trans (setEntry_keys parse svn n v acc)

theorem setRows_lookup_not_mentioned (parse : String → Option Int) (svn : List String)
    (rows : List Row) (v : String) :
    ∀ acc, (∀ r ∈ rows, mentionsVar v r = false) →
      lookupVal (setRows parse svn rows acc).1 v = lookupVal acc.1 v := by
  induction rows with
  | nil => intro acc _; rfl
  | cons r rest ih =>
      intro acc h
      have hr := h r (List.mem_cons_self r rest)
      have hrest : ∀ q ∈ rest, mentionsVar v q = false :=
        fun q hq => h q (List.mem_cons_of_mem r hq)
      cases r with
      | scanErr e => exact ih _ hrest
      | entry n s =>
          have hn : v ≠ n := by
            intro he
            rw [mentionsVar] at hr
            simp [he] at hr
          exact (ih _ hrest).trans (setEntry_lookup_ne parse svn n s hn acc)

theorem setRows_frame (parse : String → Option Int) (svn : List String)
    (rows : List Row) (v : String) :
    ∀ acc, (v ∉ svn ∨ ∀ r ∈ rows, writesVar parse v r = false) →
      lookupVal (setRows parse svn rows acc).1 v = lookupVal acc.1 v := by
  induction rows with
  | nil => intro acc _; rfl
  | cons r rest ih =>
      intro acc h
      have hrest : v ∉ svn ∨ ∀ q ∈ rest, writesVar parse v q = false := by
        cases h with
        | inl hv => exact Or.inl hv
        | inr hall => exact Or.inr fun q hq => hall q (List.mem_cons_of_mem r hq)
      cases r with
      | scanErr e => exact ih _ hrest
      | entry n s =>
          refine (ih _ hrest).trans ?_
          by_cases hn : v = n
          · subst hn
            cases h with
            | inl hv =>
                rw [setEntry_notin parse svn v s hv acc]
            | inr hall =>
                have hw := hall (Row.entry v s) (List.mem_cons_self _ rest)
                rw [writesVar] at hw
                simp only [decide_True, Bool.true_and] at hw
                have hp : parse s = none := by
                  cases hps : parse s with
                  | none => rfl
                  | some y => rw [hps] at hw; simp at hw
                exact congrArg (fun st => lookupVal st v)
                  (setEntry_badparse parse svn v s hp acc).1
          · exact setEntry_lookup_ne parse svn n s hn acc

/-- Claim C9: during one MySQL status sample pass, a failing row — a
scan error, or a listed variable whose value does not parse — is logged
(the log strictly grows) and skipped (the status map is untouched by
it), and the pass is not aborted: a listed variable `v` whose own row
parses successfully, not overwritten later, still ends with its gauge
set to the parsed value. -/
theorem mysql_failed_row_logged_and_skipped
    (parse : String → Option Int) (m : MysqlPlugin) (r1 mid r2 : List Row)
    (log : List String) (bad : Row) (v s : String) (x : Int)
    (hfail : rowFails parse m.StatusVariableName bad)
    (hv : v ∈ m.StatusVariableName)
    (hk : (lookupVal m.status v).isSome)
    (hx : parse s = some x)
    (hlast : ∀ r ∈ r2, mentionsVar v r = false) :
    (setRows parse m.StatusVariableName [bad]
        (setRows parse m.StatusVariableName r1 (m.status, log))).1 =
      (setRows parse m.StatusVariableName r1 (m.status, log)).1 ∧
    (setRows parse m.StatusVariableName r1 (m.status, log)).2.length <
      (setRows parse m.StatusVariableName [bad]
        (setRows parse m.StatusVariableName r1 (m.status, log))).2.length ∧
    lookupVal
        (MysqlSet parse m (r1 ++ bad :: (mid ++ Row.entry v s :: r2)) log).1.status v
      = some x := by
  have hskip : ∀ acc : List (String × Int) × List String,
      (setRows parse m.StatusVariableName [bad] acc).1 = acc.1 ∧
      acc.2.length < (setRows parse m.StatusVariableName [bad] acc).2.length := by
    intro acc
    cases bad with
    | scanErr e => exact ⟨rfl, by simp [setRows]⟩
    | entry n val =>
        simp only [rowFails] at hfail
        have hb := setEntry_badparse parse m.StatusVariableName n val hfail.2 acc
        exact ⟨hb.1, hb.2 hfail.1⟩
  refine ⟨(hskip _).1, (hskip _).2, ?_⟩
  show lookupVal
      (setRows parse m.StatusVariableName (r1 ++ bad :: (mid ++ Row.entry v s :: r2))
        (m.status, log)).1 v = some x
  have hsplit : r1 ++ bad :: (mid ++ Row.entry v s :: r2) =
      (r1 ++ bad :: mid) ++ (Row.entry v s :: r2) := by
    simp only [List.append_assoc, List.cons_append]
  rw [hsplit, setRows_append]
  have hstep : setRows parse m.StatusVariableName (Row.entry v s :: r2)
        (setRows parse m.StatusVariableName (r1 ++ bad :: mid) (m.status, log)) =
      setRows parse m.StatusVariableName r2
        (setEntry parse m.StatusVariableName v s
          (setRows parse m.StatusVariableName (r1 ++ bad :: mid) (m.status, log))) := rfl
  rw [hstep, setRows_lookup_not_mentioned parse m.StatusVariableName r2 v _ hlast]
  apply setEntry_lookup_hit parse m.StatusVariableName v s x hx hv
  rw [lookupVal_isSome_iff, setRows_keys]
  rw [lookupVal_isSome_iff] at hk
  exact hk

/-- Witness for C9: two listed variables, a pass whose first row fails
to parse and whose second row sets the other gauge. -/
theorem mysql_failed_row_logged_and_skipped_witness :
    (setRows (fun s => if s = "5" then some 5 else if s = "100" then some 100 else none)
        (MysqlInitialize ["Threads_connected", "Uptime"]).StatusVariableName
        [Row.entry "Uptime" "abc"]
        (setRows (fun s => if s = "5" then some 5 else if s = "100" then some 100 else none)
          (MysqlInitialize ["Threads_connected", "Uptime"]).StatusVariableName []
          ((MysqlInitialize ["Threads_connected", "Uptime"]).status, []))).1 =
      (setRows (fun s => if s = "5" then some 5 else if s = "100" then some 100 else none)
        (MysqlInitialize ["Threads_connected", "Uptime"]).StatusVariableName []
        ((MysqlInitialize ["Threads_connected", "Uptime"]).status, [])).1 ∧
    (setRows (fun s => if s = "5" then some 5 else if s = "100" then some 100 else none)
        (MysqlInitialize ["Threads_connected", "Uptime"]).StatusVariableName []
        ((MysqlInitialize ["Threads_connected", "Uptime"]).status, [])).2.length <
      (setRows (fun s => if s = "5" then some 5 else if s = "100" then some 100 else none)
        (MysqlInitialize ["Threads_connected", "Uptime"]).StatusVariableName
        [Row.entry "Uptime" "abc"]
        (setRows (fun s => if s = "5" then some 5 else if s = "100" then some 100 else none)
          (MysqlInitialize ["Threads_connected", "Uptime"]).StatusVariableName []
          ((MysqlInitialize ["Threads_connected", "Uptime"]).status, []))).2.length ∧
    lookupVal
        (MysqlSet (fun s => if s = "5" then some 5 else if s = "100" then some 100 else none)
          (MysqlInitialize ["Threads_connected", "Uptime"])
          ([] ++ Row.entry "Uptime" "abc" :: ([] ++ Row.entry "Threads_connected" "5" :: []))
          []).1.status "Threads_connected"
      = some 5 :=
  mysql_failed_row_logged_and_skipped
    (fun s => if s = "5" then some 5 else if s = "100" then some 100 else none)
    (MysqlInitialize ["Threads_connected", "Uptime"]) [] [] [] []
    (Row.entry "Uptime" "abc") "Threads_connected" "5" 5
    (by decide) (by decide) (by decide) (by decide) (by decide)

/-- Claim C10: one MySQL sample pass never adds or removes entries of
the status gauge map and never touches the listed-variable list; a
variable that is unlisted, or that no queried row writes with a
parseable value, keeps exactly its previous gauge value. -/
theorem mysql_set_modifies_only_written_gauges
    (parse : String → Option Int) (m : MysqlPlugin) (rows : List Row)
    (log : List String) (v : String)
    (hframe : v ∉ m.StatusVariableName ∨ ∀ r ∈ rows, writesVar parse v r = false) :
    (MysqlSet parse m rows log).1.status.map Prod.fst = m.status.map Prod.fst ∧
    (MysqlSet parse m rows log).1.StatusVariableName = m.StatusVariableName ∧
    lookupVal (MysqlSet parse m rows log).1.status v = lookupVal m.status v := by
  refine ⟨?_, rfl, ?_⟩
  · show (setRows parse m.StatusVariableName rows (m.status, log)).1.map Prod.fst =
      m.status.map Prod.fst
    exact setRows_keys parse m.StatusVariableName rows (m.status, log)
  · show lookupVal (setRows parse m.StatusVariableName rows (m.status, log)).1 v =
      lookupVal m.status v
    exact setRows_frame parse m.StatusVariableName rows v (m.status, log) hframe

/-- Witness for C10: a pass over a scan error, an unlisted row and an
unparseable row for "Uptime" leaves the "Uptime" gauge, the key set and
the listed names unchanged. -/
theorem mysql_set_modifies_only_written_gauges_witness :
    (MysqlSet (fun s => if s = "7" then some 7 else none)
        (MysqlInitialize ["Threads_connected", "Uptime"])
        [Row.scanErr "broken", Row.entry "Innodb_rows_read" "7",
         Row.entry "Uptime" "oops"] []).1.status.map Prod.fst =
      (MysqlInitialize ["Threads_connected", "Uptime"]).status.map Prod.fst ∧
    (MysqlSet (fun s => if s = "7" then some 7 else none)
        (MysqlInitialize ["Threads_connected", "Uptime"])
        [Row.scanErr "broken", Row.entry "Innodb_rows_read" "7",
         Row.entry "Uptime" "oops"] []).1.StatusVariableName =
      (MysqlInitialize ["Threads_connected", "Uptime"]).StatusVariableName ∧
    lookupVal
        (MysqlSet (fun s => if s = "7" then some 7 else none)
          (MysqlInitialize ["Threads_connected", "Uptime"])
          [Row.scanErr "broken", Row.entry "Innodb_rows_read" "7",
           Row.entry "Uptime" "oops"] []).1.status "Uptime" =
      lookupVal (MysqlInitialize ["Threads_connected", "Uptime"]).status "Uptime" :=
  mysql_set_modifies_only_written_gauges
    (fun s => if s = "7" then some 7 else none)
    (MysqlInitialize ["Threads_connected", "Uptime"])
    [Row.scanErr "broken", Row.entry "Innodb_rows_read" "7",
     Row.entry "Uptime" "oops"] [] "Uptime"
    (by decide)

end GormProm
